import Mathlib

/-!
Shallow embedding of the dataset-normalization pipeline of app.py:
the function load_data (after the CSV has been read) together with the
module-level empty check.  Column names are lower-cased, cost columns
are discovered by the marker substring, the required base columns are
selected (their absence surfaces as an error naming the missing ones),
the table is melted into one candidate record per (cost column, row),
a four-digit year token and an age-group token are extracted from the
cost-column name by leftmost pattern match, candidates with a failed
extraction or a missing cost value are dropped, and the survivors are
canonicalized (year parsed to an integer, age group capitalized).
-/

/-- A cell of the raw table: a numeric value, a string, or missing (NaN). -/
inductive CellValue where
  | num (q : ℚ)
  | str (s : String)
  | na
deriving DecidableEq

/-- Raw wide-format table: named columns and rows of cells. -/
structure RawTable where
  cols : List String
  rows : List (List CellValue)
deriving DecidableEq

/-- ASCII lower-casing of one character, as str.lower acts on these names. -/
def lowerChar (c : Char) : Char :=
  if 64 < c.toNat ∧ c.toNat < 91 then Char.ofNat (c.toNat + 32) else c

/-- str.lower on a whole name. -/
def lowerString (s : String) : String :=
  String.mk (s.data.map lowerChar)

/-- ASCII upper-casing of one character, for str.capitalize. -/
def upperChar (c : Char) : Char :=
  if 96 < c.toNat ∧ c.toNat < 123 then Char.ofNat (c.toNat - 32) else c

/-- Python str.capitalize: first character upper-cased, the rest lower-cased. -/
def capitalizeStr (s : String) : String :=
  match s.data with
  | [] => s
  | c :: cs => String.mk (upperChar c :: cs.map lowerChar)

/-- Does the list start with the given pattern? -/
def startsList : List Char → List Char → Bool
  | [], _ => true
  | _ :: _, [] => false
  | p :: ps, c :: cs => p == c && startsList ps cs

/-- Substring containment, python-style membership of pat in the list. -/
def containsList (pat : List Char) : List Char → Bool
  | [] => startsList pat []
  | l@(_ :: t) => startsList pat l || containsList pat t

/-- Substring containment on strings. -/
def strContains (s pat : String) : Bool :=
  containsList pat.data s.data

/-- Leftmost-match scan: try the matcher at every position, left to right
(the re.search semantics for the patterns used by the source). -/
def scanFirst {α : Type} (f : List Char → Option α) : List Char → Option α
  | [] => none
  | l@(_ :: t) =>
    match f l with
    | some x => some x
    | none => scanFirst f t

/-- Match of four consecutive digits at the head of the list: one attempt
of the year pattern at one position. -/
def take4Digits : List Char → Option (List Char)
  | a :: b :: c :: d :: _ =>
    if a.isDigit && b.isDigit && c.isDigit && d.isDigit then some [a, b, c, d]
    else none
  | _ => none

/-- Year extraction from a metric name: leftmost run of four digits. -/
def extractYearStr (l : List Char) : Option (List Char) :=
  scanFirst take4Digits l

/-- Age-token match at the head of the list, alternatives tried in the
source order infant, toddler, preschool. -/
def ageTokenAt (l : List Char) : Option String :=
  if startsList ("infant".data) l then some "infant"
  else if startsList ("toddler".data) l then some "toddler"
  else if startsList ("preschool".data) l then some "preschool"
  else none

/-- Age-group extraction from a metric name: leftmost occurrence of one of
the three tokens. -/
def extractAgeStr (l : List Char) : Option String :=
  scanFirst ageTokenAt l

/-- Numeric value of a digit character. -/
def digitVal (c : Char) : Nat := c.toNat - 48

/-- int(...) on a string of digits. -/
def parseDigits (l : List Char) : Nat :=
  l.foldl (fun a c => a * 10 + digitVal c) 0

/-- The fixed base (identity) columns of the source. -/
def baseCols : List String := ["state_name", "state_abbreviation", "county_name"]

/-- Cost-column discovery of the source: every column whose lower-cased
name contains the marker substring. -/
def costColsOf (cols : List String) : List String :=
  cols.filter (fun c => strContains (lowerString c) "_75fcc")

/-- The required base columns absent from the (lower-cased) column list,
as the pandas column selection reports them when it fails. -/
def missingBase (cols : List String) : List String :=
  baseCols.filter (fun b => !(cols.contains b))

/-- Index of the first column with the given name. -/
def colIndex (c : String) : List String → Option Nat
  | [] => none
  | c0 :: cs => if c0 = c then some 0 else (colIndex c cs).map (fun i => i + 1)

/-- Value of a row at a named column. -/
def getCell (cols : List String) (row : List CellValue) (c : String) : CellValue :=
  match colIndex c cols with
  | some i => row.getD i CellValue.na
  | none => CellValue.na

/-- One melted row: base values, the originating cost-column name, and
the cost value. -/
structure Candidate where
  state_name : CellValue
  state_abbreviation : CellValue
  county_name : CellValue
  metric : String
  weekly_cost : CellValue
deriving DecidableEq

/-- Build the candidate of one (row, cost column) pair. -/
def mkCandidate (cols : List String) (row : List CellValue) (c : String) : Candidate :=
  { state_name := getCell cols row "state_name",
    state_abbreviation := getCell cols row "state_abbreviation",
    county_name := getCell cols row "county_name",
    metric := c,
    weekly_cost := getCell cols row c }

/-- The melt step: one candidate per (cost column, row), column-major as
pandas melt orders them. -/
def candidatesLowered (cols : List String) (rows : List (List CellValue))
    (ccs : List String) : List Candidate :=
  ccs.flatMap (fun cc => rows.map (fun r => mkCandidate cols r cc))

/-- All candidates of a (lower-cased) table. -/
def candidatesOf (t : RawTable) : List Candidate :=
  candidatesLowered t.cols t.rows (costColsOf t.cols)

/-- Is the cell missing? -/
def isNA : CellValue → Bool
  | CellValue.na => true
  | _ => false

/-- The year_str column of a candidate. -/
def candYearStr (c : Candidate) : Option (List Char) := extractYearStr c.metric.data

/-- The age_group_str column of a candidate. -/
def candAgeStr (c : Candidate) : Option String := extractAgeStr c.metric.data

/-- The dropna filter over year_str, age_group_str and weekly_cost. -/
def candValid (c : Candidate) : Bool :=
  (candYearStr c).isSome && (candAgeStr c).isSome && !(isNA c.weekly_cost)

/-- One row of the canonical long-format output. -/
structure CanonicalRecord where
  state_name : CellValue
  state_abbreviation : CellValue
  county_name : CellValue
  year : Nat
  age_group : String
  weekly_cost : CellValue
deriving DecidableEq

/-- The year field: the extracted four-digit token parsed as an integer. -/
def candYear (c : Candidate) : Nat := parseDigits ((candYearStr c).getD [])

/-- The age_group field: the extracted token capitalized. -/
def candAge (c : Candidate) : String := capitalizeStr ((candAgeStr c).getD "")

/-- Canonicalization of a surviving candidate. -/
def finalize (c : Candidate) : CanonicalRecord :=
  { state_name := c.state_name,
    state_abbreviation := c.state_abbreviation,
    county_name := c.county_name,
    year := candYear c,
    age_group := candAge c,
    weekly_cost := c.weekly_cost }

/-- Failures of load_data after the file has been read: the pandas column
selection raising on absent base columns, naming them. -/
inductive LoadError where
  | missingColumns (missing : List String)
deriving DecidableEq

/-- The body of load_data on the table whose column names were already
lower-cased. -/
def normalizeLowered (t : RawTable) : Except LoadError (List CanonicalRecord) :=
  let missing := missingBase t.cols
  if missing.isEmpty then
    Except.ok (((candidatesOf t).filter candValid).map finalize)
  else
    Except.error (LoadError.missingColumns missing)

/-- The first step of load_data: lower-case every column name. -/
def lowerTable (t : RawTable) : RawTable :=
  { cols := t.cols.map lowerString, rows := t.rows }

/-- load_data of app.py after the file has been read. -/
def load_data (t : RawTable) : Except LoadError (List CanonicalRecord) :=
  normalizeLowered (lowerTable t)

/-- Failures of the whole pipeline: a load failure, or the module-level
empty check stopping the app. -/
inductive PipelineError where
  | loadFailed (e : LoadError)
  | emptyResult
deriving DecidableEq

/-- load_data together with the module-level empty check of app.py. -/
def runPipeline (t : RawTable) : Except PipelineError (List CanonicalRecord) :=
  match load_data t with
  | Except.error e => Except.error (PipelineError.loadFailed e)
  | Except.ok recs =>
    if recs.isEmpty then Except.error PipelineError.emptyResult
    else Except.ok recs

/-- Cost-column discovery as the specification words it: non-base columns
containing the marker substring and one of the three age-group tokens,
matched case-insensitively. -/
def specCostCols (cols : List String) : List String :=
  cols.filter (fun c =>
    !(baseCols.contains (lowerString c)) &&
    strContains (lowerString c) "_75fcc" &&
    (strContains (lowerString c) "infant" || strContains (lowerString c) "toddler" ||
      strContains (lowerString c) "preschool"))

/-- The raw table of Scenario A. -/
def scenarioA : RawTable :=
  { cols := ["state_name", "state_abbreviation", "county_name",
             "2010_75fccinfant", "2010_75fcctoddler"],
    rows := [[CellValue.str "California", CellValue.str "CA", CellValue.str "Alameda",
              CellValue.num 1200, CellValue.num 1100]] }

/-- The two records Scenario A must produce. -/
def recA1 : CanonicalRecord :=
  { state_name := CellValue.str "California", state_abbreviation := CellValue.str "CA",
    county_name := CellValue.str "Alameda", year := 2010, age_group := "Infant",
    weekly_cost := CellValue.num 1200 }

def recA2 : CanonicalRecord :=
  { state_name := CellValue.str "California", state_abbreviation := CellValue.str "CA",
    county_name := CellValue.str "Alameda", year := 2010, age_group := "Toddler",
    weekly_cost := CellValue.num 1100 }

/-- Unfolding of load_data as a single conditional. -/
theorem load_data_eq (t : RawTable) :
    load_data t =
      if (missingBase (t.cols.map lowerString)).isEmpty then
        Except.ok (((candidatesOf (lowerTable t)).filter candValid).map finalize)
      else
        Except.error (LoadError.missingColumns (missingBase (t.cols.map lowerString))) :=
  rfl

/-- A successful load_data returns exactly the canonicalized survivors of
the dropna filter. -/
theorem load_data_ok_shape (t : RawTable) (recs : List CanonicalRecord)
    (h : load_data t = Except.ok recs) :
    recs = ((candidatesOf (lowerTable t)).filter candValid).map finalize := by
  rw [load_data_eq] at h
  split at h
  · injection h with h
    exact h.symm
  · exact Except.noConfusion h

/-- Any result of the leftmost scan is the matcher's answer at some suffix. -/
theorem scanFirst_some {α : Type} (f : List Char → Option α) :
    ∀ (l : List Char) (x : α), scanFirst f l = some x → ∃ l2, f l2 = some x := by
  intro l
  induction l with
  | nil => intro x h; exact Option.noConfusion h
  | cons c t ih =>
    intro x h
    unfold scanFirst at h
    cases hf : f (c :: t) with
    | some y =>
      rw [hf] at h
      injection h with h
      exact ⟨c :: t, by rw [hf, h]⟩
    | none =>
      rw [hf] at h
      exact ih x h

/-- If the matcher succeeds at position i and fails at every earlier
position, the scan returns the match at i. -/
theorem scanFirst_leftmost {α : Type} (f : List Char → Option α) (h0 : f [] = none) :
    ∀ (i : Nat) (l : List Char) (x : α), f (l.drop i) = some x →
      (∀ j, j < i → f (l.drop j) = none) → scanFirst f l = some x := by
  intro i
  induction i with
  | zero =>
    intro l x h1 _
    cases l with
    | nil =>
      rw [List.drop_nil, h0] at h1
      exact Option.noConfusion h1
    | cons c t =>
      rw [List.drop_zero] at h1
      unfold scanFirst
      rw [h1]
  | succ i ih =>
    intro l x h1 h2
    cases l with
    | nil =>
      rw [List.drop_nil, h0] at h1
      exact Option.noConfusion h1
    | cons c t =>
      have hh : f (c :: t) = none := by
        have := h2 0 (Nat.succ_pos i)
        rwa [List.drop_zero] at this
      unfold scanFirst
      rw [hh]
      rw [List.drop_succ_cons] at h1
      exact ih t x h1 (fun j hj => by
        have := h2 (j + 1) (Nat.succ_lt_succ hj)
        rwa [List.drop_succ_cons] at this)

/-- The age matcher only ever answers one of the three tokens. -/
theorem ageTokenAt_cases (l : List Char) (tok : String) (h : ageTokenAt l = some tok) :
    tok = "infant" ∨ tok = "toddler" ∨ tok = "preschool" := by
  unfold ageTokenAt at h
  split_ifs at h <;> simp_all

/-- Age extraction only ever answers one of the three tokens. -/
theorem extractAgeStr_cases (l : List Char) (tok : String)
    (h : extractAgeStr l = some tok) :
    tok = "infant" ∨ tok = "toddler" ∨ tok = "preschool" := by
  obtain ⟨l2, h2⟩ := scanFirst_some ageTokenAt l tok h
  exact ageTokenAt_cases l2 tok h2

/-- The metric of a melted candidate is one of the discovered cost columns. -/
theorem mem_candidates_metric (cols : List String) (rows : List (List CellValue))
    (ccs : List String) (c : Candidate) (h : c ∈ candidatesLowered cols rows ccs) :
    c.metric ∈ ccs := by
  unfold candidatesLowered at h
  rw [List.mem_flatMap] at h
  obtain ⟨cc, hcc, hc⟩ := h
  rw [List.mem_map] at hc
  obtain ⟨r, _, rfl⟩ := hc
  exact hcc

/-- Decomposition of the dropna condition. -/
theorem candValid_parts (c : Candidate) (h : candValid c = true) :
    (candYearStr c).isSome = true ∧ (candAgeStr c).isSome = true ∧
      isNA c.weekly_cost = false := by
  unfold candValid at h
  simp only [Bool.and_eq_true, Bool.not_eq_true'] at h
  exact ⟨h.1.1, h.1.2, h.2⟩

/-- A surviving candidate canonicalizes to a capitalized age group. -/
theorem finalize_age_group (c : Candidate) (h : candValid c = true) :
    (finalize c).age_group = "Infant" ∨ (finalize c).age_group = "Toddler" ∨
      (finalize c).age_group = "Preschool" := by
  obtain ⟨_, ha, _⟩ := candValid_parts c h
  rw [Option.isSome_iff_exists] at ha
  obtain ⟨tok, htok⟩ := ha
  have hcases := extractAgeStr_cases c.metric.data tok htok
  show candAge c = "Infant" ∨ candAge c = "Toddler" ∨ candAge c = "Preschool"
  unfold candAge
  unfold candAgeStr at htok ⊢
  rw [htok]
  rcases hcases with h1 | h1 | h1 <;> subst h1 <;> decide

/-- A surviving candidate canonicalizes to a present cost value. -/
theorem finalize_cost_not_na (c : Candidate) (h : candValid c = true) :
    (finalize c).weekly_cost ≠ CellValue.na := by
  obtain ⟨_, _, hna⟩ := candValid_parts c h
  show c.weekly_cost ≠ CellValue.na
  intro hcontra
  rw [hcontra] at hna
  exact Bool.noConfusion hna

/-- Every output record comes from a candidate surviving the dropna filter. -/
theorem mem_ok_record (t : RawTable) (recs : List CanonicalRecord)
    (h : load_data t = Except.ok recs) (r : CanonicalRecord) (hr : r ∈ recs) :
    ∃ c, candValid c = true ∧ c ∈ candidatesOf (lowerTable t) ∧ r = finalize c := by
  rw [load_data_ok_shape t recs h] at hr
  rw [List.mem_map] at hr
  obtain ⟨c, hc, hrc⟩ := hr
  rw [List.mem_filter] at hc
  exact ⟨c, hc.2, hc.1, hrc.symm⟩

/-- Claim C1: on the Scenario A table, normalization returns exactly the
Infant record (California, CA, Alameda, 2010, Infant, 1200.0) and the
Toddler record (California, CA, Alameda, 2010, Toddler, 1100.0). -/
theorem c1_scenarioA : load_data scenarioA = Except.ok [recA1, recA2] := by
  rfl

/-- Claim C2: whenever a required base column is absent after
case-insensitive matching, load_data fails with the error naming exactly
the missing base columns, and no records are produced. -/
theorem c2_missing_base (t : RawTable) (b0 : String) (hb0 : b0 ∈ baseCols)
    (habs : (t.cols.map lowerString).contains b0 = false) :
    load_data t =
      Except.error (LoadError.missingColumns (missingBase (t.cols.map lowerString))) ∧
    b0 ∈ missingBase (t.cols.map lowerString) ∧
    ∀ b ∈ missingBase (t.cols.map lowerString),
      b ∈ baseCols ∧ (t.cols.map lowerString).contains b = false := by
  have hmem : b0 ∈ missingBase (t.cols.map lowerString) := by
    unfold missingBase
    rw [List.mem_filter]
    refine ⟨hb0, ?_⟩
    rw [habs]
    rfl
  have hfalse : (missingBase (t.cols.map lowerString)).isEmpty = false := by
    cases hmb : missingBase (t.cols.map lowerString) with
    | nil => rw [hmb] at hmem; exact absurd hmem (List.not_mem_nil b0)
    | cons a l => rfl
  refine ⟨?_, hmem, ?_⟩
  · rw [load_data_eq, hfalse]
    rfl
  · intro b hb
    unfold missingBase at hb
    rw [List.mem_filter] at hb
    refine ⟨hb.1, ?_⟩
    have := hb.2
    rwa [Bool.not_eq_true'] at this

/-- Concrete instance of C2: a table lacking county_name. -/
def c2table : RawTable :=
  { cols := ["State_Name", "state_abbreviation"], rows := [] }

/-- Witness for C2 at the concrete table lacking county_name. -/
theorem c2_missing_base_witness :
    load_data c2table =
      Except.error (LoadError.missingColumns (missingBase (c2table.cols.map lowerString))) ∧
    "county_name" ∈ missingBase (c2table.cols.map lowerString) := by
  have h := c2_missing_base c2table "county_name" (by decide) (by decide)
  exact ⟨h.1, h.2.1⟩

/-- The raw table of Scenario B, exactly as the claim states it. -/
def scenarioB : RawTable :=
  { cols := ["State_Name", "StudyYear", "_75FCCPreschool"],
    rows := [[CellValue.str "Texas", CellValue.num 2015, CellValue.num 800]] }

/-- Scenario B with all base columns supplied, so that only the
study-year question remains. -/
def c3full : RawTable :=
  { cols := ["state_name", "state_abbreviation", "county_name", "studyyear",
             "_75fccpreschool"],
    rows := [[CellValue.str "Texas", CellValue.str "TX", CellValue.str "Travis",
              CellValue.num 2015, CellValue.num 800]] }

/-- Counterexample to claim C3: the Scenario B table does not normalize to
a Texas record at all, it fails on the missing base columns; and even with
the base columns supplied, the cost column without a year token yields no
record, so the study-year column is never consulted. -/
theorem c3_counterexample :
    load_data scenarioB =
      Except.error (LoadError.missingColumns ["state_abbreviation", "county_name"]) ∧
    load_data c3full = Except.ok [] := by
  exact ⟨rfl, rfl⟩

/-- Claim C3 as amended: a candidate whose cost-column name holds no
four-digit year token is dropped; the study-year column is never used, so
if no discovered cost column holds a year token the output is empty. -/
theorem c3_no_year_token_dropped (t : RawTable) (recs : List CanonicalRecord)
    (h : load_data t = Except.ok recs)
    (hy : ∀ c ∈ costColsOf (t.cols.map lowerString), extractYearStr c.data = none) :
    recs = [] := by
  rw [load_data_ok_shape t recs h]
  have hnil : (candidatesOf (lowerTable t)).filter candValid = [] := by
    rw [List.filter_eq_nil_iff]
    intro c hc
    have hm : c.metric ∈ costColsOf (t.cols.map lowerString) :=
      mem_candidates_metric (lowerTable t).cols (lowerTable t).rows
        (costColsOf (lowerTable t).cols) c hc
    have hnone := hy c.metric hm
    unfold candValid candYearStr
    rw [hnone]
    simp
  rw [hnil, List.map_nil]

/-- Witness for the amended C3 at the completed Scenario B table. -/
theorem c3_no_year_token_dropped_witness :
    load_data c3full = Except.ok [] ∧ ([] : List CanonicalRecord) = [] :=
  ⟨rfl, c3_no_year_token_dropped c3full [] rfl (by decide)⟩

/-- The column list of the C4 counterexample: one column carries the cost
marker but no age-group token. -/
def c4cols : List String :=
  ["state_name", "state_abbreviation", "county_name", "2010_75fcc"]

/-- Counterexample to claim C4: the code discovers the marker-only column
2010_75fcc as a cost column although it holds no age-group token, so the
discovered set differs from the set the claim describes. -/
theorem c4_counterexample :
    costColsOf c4cols ≠ specCostCols c4cols ∧
    costColsOf c4cols = ["2010_75fcc"] ∧ specCostCols c4cols = [] := by
  refine ⟨?_, by decide, by decide⟩
  decide

/-- Claim C4 as amended: the discovered cost columns are exactly the
columns whose lower-cased name contains the marker substring; no
age-group condition is applied at discovery. -/
theorem c4_cost_discovery (cols : List String) (c : String) :
    c ∈ costColsOf cols ↔ c ∈ cols ∧ strContains (lowerString c) "_75fcc" = true := by
  unfold costColsOf
  rw [List.mem_filter]

/-- The C5 counterexample table: its only cost value is the non-numeric
string abc in every row. -/
def c5cex : RawTable :=
  { cols := ["state_name", "state_abbreviation", "county_name", "2010_75fccinfant"],
    rows := [[CellValue.str "California", CellValue.str "CA", CellValue.str "Alameda",
              CellValue.str "abc"]] }

/-- The record the pipeline keeps for the C5 counterexample table. -/
def c5rec : CanonicalRecord :=
  { state_name := CellValue.str "California", state_abbreviation := CellValue.str "CA",
    county_name := CellValue.str "Alameda", year := 2010, age_group := "Infant",
    weekly_cost := CellValue.str "abc" }

/-- Counterexample to claim C5: on a table whose every cost value is
non-numeric, the pipeline does not report an empty result; the dropna
step only removes missing values, so the string-valued record survives. -/
theorem c5_counterexample :
    runPipeline c5cex = Except.ok [c5rec] ∧
    runPipeline c5cex ≠ Except.error PipelineError.emptyResult := by
  refine ⟨rfl, ?_⟩
  intro h
  rw [show runPipeline c5cex = Except.ok [c5rec] from rfl] at h
  exact Except.noConfusion h

/-- Claim C5 as amended: when zero cost columns are discovered or every
candidate fails the dropna validation (missing year token, missing age
token, or missing cost value), the pipeline stops with the empty-result
error instead of passing records downstream. -/
theorem c5_all_invalid_empty_error (t : RawTable) (recs : List CanonicalRecord)
    (h : load_data t = Except.ok recs)
    (hv : ∀ c ∈ candidatesOf (lowerTable t), candValid c = false) :
    runPipeline t = Except.error PipelineError.emptyResult := by
  have hr : recs = [] := by
    rw [load_data_ok_shape t recs h]
    have hnil : (candidatesOf (lowerTable t)).filter candValid = [] := by
      rw [List.filter_eq_nil_iff]
      intro c hc
      rw [hv c hc]
      exact Bool.false_ne_true
    rw [hnil, List.map_nil]
  subst hr
  unfold runPipeline
  rw [h]
  rfl

/-- The C5 witness table: its only cost value is missing in every row. -/
def c5na : RawTable :=
  { cols := ["state_name", "state_abbreviation", "county_name", "2011_75fcctoddler"],
    rows := [[CellValue.str "Alaska", CellValue.str "AK", CellValue.str "Nome",
              CellValue.na]] }

/-- Witness for the amended C5 at a table whose every cost value is missing. -/
theorem c5_all_invalid_empty_error_witness :
    load_data c5na = Except.ok [] ∧
    runPipeline c5na = Except.error PipelineError.emptyResult :=
  ⟨rfl, c5_all_invalid_empty_error c5na [] rfl (by decide)⟩

/-- Claim C6: two raw tables identical except for the case of their
column names normalize to identical canonical output, because load_data
lower-cases every column name before it does anything else. -/
theorem c6_case_tolerance (t1 t2 : RawTable)
    (hc : t1.cols.map lowerString = t2.cols.map lowerString)
    (hr : t1.rows = t2.rows) :
    load_data t1 = load_data t2 := by
  unfold load_data lowerTable
  rw [hc, hr]

/-- A mixed-case variant of the Scenario A layout. -/
def c6upper : RawTable :=
  { cols := ["State_Name", "STATE_ABBREVIATION", "county_name", "2010_75FCCInfant"],
    rows := [[CellValue.str "California", CellValue.str "CA", CellValue.str "Alameda",
              CellValue.num 1200]] }

/-- The same table with different casing of the column names. -/
def c6lower : RawTable :=
  { cols := ["state_name", "state_abbreviation", "County_Name", "2010_75fccinfant"],
    rows := [[CellValue.str "California", CellValue.str "CA", CellValue.str "Alameda",
              CellValue.num 1200]] }

/-- Witness for C6 at two concrete tables differing only in column case. -/
theorem c6_case_tolerance_witness :
    c6upper.cols.map lowerString = c6lower.cols.map lowerString ∧
    load_data c6upper = load_data c6lower :=
  ⟨by decide, c6_case_tolerance c6upper c6lower (by decide) rfl⟩

/-- Claim C7: every output record has a capitalized age group from the
fixed vocabulary and a present weekly cost, and exactly the candidates
surviving the dropna filter become records, so no (row, column) pair
with a failed extraction emits one. -/
theorem c7_record_invariants (t : RawTable) (recs : List CanonicalRecord)
    (h : load_data t = Except.ok recs) :
    recs.length = ((candidatesOf (lowerTable t)).filter candValid).length ∧
    ∀ r ∈ recs,
      (r.age_group = "Infant" ∨ r.age_group = "Toddler" ∨ r.age_group = "Preschool") ∧
      r.weekly_cost ≠ CellValue.na := by
  constructor
  · rw [load_data_ok_shape t recs h]
    exact List.length_map _ _
  · intro r hr
    obtain ⟨c, hvalid, _, rfl⟩ := mem_ok_record t recs h r hr
    exact ⟨finalize_age_group c hvalid, finalize_cost_not_na c hvalid⟩

/-- Witness for C7 at the Scenario A table. -/
theorem c7_record_invariants_witness :
    load_data scenarioA = Except.ok [recA1, recA2] ∧
    ([recA1, recA2].length =
        ((candidatesOf (lowerTable scenarioA)).filter candValid).length ∧
      ∀ r ∈ [recA1, recA2],
        (r.age_group = "Infant" ∨ r.age_group = "Toddler" ∨ r.age_group = "Preschool") ∧
        r.weekly_cost ≠ CellValue.na) :=
  ⟨rfl, c7_record_invariants scenarioA [recA1, recA2] rfl⟩

/-- The C8 counterexample table: a negative cost value. -/
def c8table : RawTable :=
  { cols := ["state_name", "state_abbreviation", "county_name", "2012_75fcctoddler"],
    rows := [[CellValue.str "Alaska", CellValue.str "AK", CellValue.str "Nome",
              CellValue.num (-5)]] }

/-- The record the code produces for the C8 counterexample table. -/
def c8rec : CanonicalRecord :=
  { state_name := CellValue.str "Alaska", state_abbreviation := CellValue.str "AK",
    county_name := CellValue.str "Nome", year := 2012, age_group := "Toddler",
    weekly_cost := CellValue.num (-5) }

/-- Counterexample to claim C8: a raw cost of -5 passes normalization
unchanged, so an output record can carry a negative weekly cost. -/
theorem c8_counterexample :
    load_data c8table = Except.ok [c8rec] ∧
    c8rec.weekly_cost = CellValue.num (-5) ∧ (-5 : ℚ) < 0 :=
  ⟨rfl, rfl, by decide⟩

/-- Claim C8 as amended: every output record has a present (non-missing)
weekly cost, but the code applies no sign check, so the value need not be
non-negative. -/
theorem c8_cost_present (t : RawTable) (recs : List CanonicalRecord)
    (h : load_data t = Except.ok recs) :
    ∀ r ∈ recs, r.weekly_cost ≠ CellValue.na := by
  intro r hr
  obtain ⟨c, hvalid, _, rfl⟩ := mem_ok_record t recs h r hr
  exact finalize_cost_not_na c hvalid

/-- Witness for the amended C8 at the negative-cost table. -/
theorem c8_cost_present_witness :
    load_data c8table = Except.ok [c8rec] ∧
    ∀ r ∈ [c8rec], r.weekly_cost ≠ CellValue.na :=
  ⟨rfl, c8_cost_present c8table [c8rec] rfl⟩

/-- Claim C9: year extraction returns the leftmost four-digit run of the
metric name, and the record-level year field is that run parsed as an
integer, also when later runs exist. -/
theorem c9_year_leftmost (l : List Char) (i : Nat) (s : List Char)
    (h1 : take4Digits (l.drop i) = some s)
    (h2 : ∀ j, j < i → take4Digits (l.drop j) = none) :
    extractYearStr l = some s ∧
    ∀ c : Candidate, c.metric.data = l → candYear c = parseDigits s := by
  have hmain : extractYearStr l = some s :=
    scanFirst_leftmost take4Digits rfl i l s h1 h2
  refine ⟨hmain, ?_⟩
  intro c hc
  unfold candYear candYearStr
  rw [hc, hmain]
  rfl

/-- A candidate whose metric name holds the two year runs 2010 and 2015. -/
def c9cand : Candidate :=
  { state_name := CellValue.na, state_abbreviation := CellValue.na,
    county_name := CellValue.na, metric := "x2010_75fcc2015infant",
    weekly_cost := CellValue.na }

/-- Witness for C9 at a metric name with two four-digit runs: the left
run 2010 wins over the later run 2015. -/
theorem c9_year_leftmost_witness :
    extractYearStr ("x2010_75fcc2015infant".data) = some ['2', '0', '1', '0'] ∧
    candYear c9cand = 2010 := by
  have h := c9_year_leftmost ("x2010_75fcc2015infant".data) 1 ['2', '0', '1', '0']
    (by decide) (by decide)
  refine ⟨h.1, ?_⟩
  rw [h.2 c9cand rfl]
  decide

/-- Claim C10: age-group extraction returns the token at the leftmost
occurrence of any of the three tokens in the metric name, and the
record-level age group is that token capitalized, also when later
occurrences of other tokens exist. -/
theorem c10_age_leftmost (l : List Char) (i : Nat) (tok : String)
    (h1 : ageTokenAt (l.drop i) = some tok)
    (h2 : ∀ j, j < i → ageTokenAt (l.drop j) = none) :
    extractAgeStr l = some tok ∧
    ∀ c : Candidate, c.metric.data = l → candAge c = capitalizeStr tok := by
  have hmain : extractAgeStr l = some tok :=
    scanFirst_leftmost ageTokenAt rfl i l tok h1 h2
  refine ⟨hmain, ?_⟩
  intro c hc
  unfold candAge candAgeStr
  rw [hc, hmain]
  rfl

/-- A candidate whose metric name holds both the infant and the toddler
token. -/
def c10cand : Candidate :=
  { state_name := CellValue.na, state_abbreviation := CellValue.na,
    county_name := CellValue.na, metric := "_75fccinfant_toddler",
    weekly_cost := CellValue.na }

/-- Witness for C10 at a metric name holding infant before toddler: the
leftmost token infant wins. -/
theorem c10_age_leftmost_witness :
    extractAgeStr ("_75fccinfant_toddler".data) = some "infant" ∧
    candAge c10cand = "Infant" := by
  have h := c10_age_leftmost ("_75fccinfant_toddler".data) 6 "infant"
    (by decide) (by decide)
  refine ⟨h.1, ?_⟩
  rw [h.2 c10cand rfl]
  decide
